import Mathlib

/-!
Shallow embedding of the physics core of `simple-physics-engine`
(src/main.rs): the `Motion` Verlet integrator, the circular boundary
`Constraint`, and the `Resolver` tick pipeline.

Modelling conventions:
* `f32` values are idealised as real numbers (`ℝ`); `Vec2` mirrors
  macroquad's two-component vector with componentwise arithmetic and
  Euclidean `length`.
* A Rust panic (out-of-range index) and an IEEE division `0.0 / 0.0`
  (which would poison the result with NaN) are both modelled as `none`:
  the functions that can hit such a state return `Option`.
* Entity populations are ordered lists; the nested in-place collision
  loop `for i in 0..n { for k in i+1..n { ... } }` is modelled by
  structural recursion that threads the mutated entities through the
  remaining iterations in exactly the source's pair order.
-/

@[ext]
structure Vec2 where
  x : ℝ
  y : ℝ

instance : Zero Vec2 := ⟨⟨0, 0⟩⟩
noncomputable instance : Add Vec2 := ⟨fun a b => ⟨a.x + b.x, a.y + b.y⟩⟩
noncomputable instance : Sub Vec2 := ⟨fun a b => ⟨a.x - b.x, a.y - b.y⟩⟩
noncomputable instance : Neg Vec2 := ⟨fun a => ⟨-a.x, -a.y⟩⟩
noncomputable instance : HMul Vec2 ℝ Vec2 := ⟨fun v s => ⟨v.x * s, v.y * s⟩⟩
noncomputable instance : HMul ℝ Vec2 Vec2 := ⟨fun s v => ⟨s * v.x, s * v.y⟩⟩
noncomputable instance : HDiv Vec2 ℝ Vec2 := ⟨fun v s => ⟨v.x / s, v.y / s⟩⟩

@[simp] theorem Vec2.zero_x : (0 : Vec2).x = 0 := rfl

@[simp] theorem Vec2.zero_y : (0 : Vec2).y = 0 := rfl

@[simp] theorem Vec2.add_x (a b : Vec2) : (a + b).x = a.x + b.x := rfl

@[simp] theorem Vec2.add_y (a b : Vec2) : (a + b).y = a.y + b.y := rfl

@[simp] theorem Vec2.sub_x (a b : Vec2) : (a - b).x = a.x - b.x := rfl

@[simp] theorem Vec2.sub_y (a b : Vec2) : (a - b).y = a.y - b.y := rfl

@[simp] theorem Vec2.neg_x (a : Vec2) : (-a).x = -a.x := rfl

@[simp] theorem Vec2.neg_y (a : Vec2) : (-a).y = -a.y := rfl

@[simp] theorem Vec2.mulR_x (v : Vec2) (s : ℝ) : (v * s).x = v.x * s := rfl

@[simp] theorem Vec2.mulR_y (v : Vec2) (s : ℝ) : (v * s).y = v.y * s := rfl

@[simp] theorem Vec2.rMul_x (s : ℝ) (v : Vec2) : (s * v).x = s * v.x := rfl

@[simp] theorem Vec2.rMul_y (s : ℝ) (v : Vec2) : (s * v).y = s * v.y := rfl

@[simp] theorem Vec2.divR_x (v : Vec2) (s : ℝ) : (v / s).x = v.x / s := rfl

@[simp] theorem Vec2.divR_y (v : Vec2) (s : ℝ) : (v / s).y = v.y / s := rfl

/-- Euclidean magnitude, as computed by macroquad's `Vec2::length`. -/
noncomputable def Vec2.length (v : Vec2) : ℝ := Real.sqrt (v.x ^ 2 + v.y ^ 2)

theorem Vec2.length_nonneg (v : Vec2) : 0 ≤ v.length := Real.sqrt_nonneg _

/-- Evaluate `length` on a vector whose magnitude is a perfect square. -/
theorem Vec2.length_eval (x y d : ℝ) (hd : 0 ≤ d) (h : x ^ 2 + y ^ 2 = d ^ 2) :
    Vec2.length ⟨x, y⟩ = d := by
  rw [Vec2.length]
  show Real.sqrt (x ^ 2 + y ^ 2) = d
  rw [h, Real.sqrt_sq hd]

theorem Vec2.length_rMul (s : ℝ) (v : Vec2) : (s * v).length = |s| * v.length := by
  rw [Vec2.length, Vec2.length]
  have h : (s * v).x ^ 2 + (s * v).y ^ 2 = s ^ 2 * (v.x ^ 2 + v.y ^ 2) := by
    simp; ring
  rw [h, Real.sqrt_mul (sq_nonneg s), Real.sqrt_sq_eq_abs]

/-- Render colour (r, g, b, a); irrelevant to the physics but carried along
so frame conditions about it can be stated. -/
@[ext]
structure Color where
  r : ℝ
  g : ℝ
  b : ℝ
  a : ℝ

/-- Per-entity kinematic state (src/main.rs, `struct Motion`). -/
@[ext]
structure Motion where
  position : Vec2
  previous_position : Vec2
  acceleration : Vec2

/-- Constructor `Motion::new` (src/main.rs:167): starts with
`previous_position == position` and zero acceleration. -/
def Motion.new (x y : ℝ) : Motion :=
  { position := ⟨x, y⟩, previous_position := ⟨x, y⟩, acceleration := ⟨0, 0⟩ }

/-- Method `Motion::update_position` (src/main.rs:177): the Verlet step.
`velocity = position - previous_position`; `previous_position = position`;
`position += acceleration + velocity * dt * dt`; `acceleration = 0`. -/
noncomputable def Motion.update_position (m : Motion) (dt : ℝ) : Motion :=
  let velocity := m.position - m.previous_position
  { position := m.position + (m.acceleration + velocity * dt * dt)
    previous_position := m.position
    acceleration := 0 }

/-- Method `Motion::accelerate` (src/main.rs:185): accumulates into the
acceleration field. -/
noncomputable def Motion.accelerate (m : Motion) (acceleration : Vec2) : Motion :=
  { m with acceleration := m.acceleration + acceleration }

/-- Source `struct Entity` (src/main.rs:131). -/
@[ext]
structure Entity where
  radius : ℝ
  color : Color
  motion : Motion

/-- Constructor `Entity::new` (src/main.rs:139). -/
def Entity.new (radius : ℝ) (color : Color) (motion : Motion) : Entity :=
  { radius := radius, color := color, motion := motion }

/-- Source `struct Constraint` (src/main.rs:190): the circular boundary. -/
structure Constraint where
  position : Vec2
  radius : ℝ
  offset : ℝ
  color : Color

/-- Source `struct Resolver` (src/main.rs:227). -/
structure Resolver where
  gravity : Vec2

namespace Resolver

/-- Method `Resolver::apply_gravity` (src/main.rs:253): every entity accumulates
the gravity vector into its acceleration. -/
noncomputable def apply_gravity (r : Resolver) (entities : List Entity) : List Entity :=
  entities.map fun e => { e with motion := e.motion.accelerate r.gravity }

/-- The body of the closure in `Resolver::apply_constraint`
(src/main.rs:264-272) applied to one entity.  When the clamp branch is
taken with `distance = 0` the Rust division `to_entity / distance` is
`0.0 / 0.0 = NaN`; that state is modelled as `none`. -/
noncomputable def constrain_entity (c : Constraint) (e : Entity) : Option Entity :=
  let to_entity := e.motion.position - c.position
  let distance := to_entity.length
  if distance > c.radius - c.offset then
    if distance = 0 then none
    else
      some { e with motion :=
        { e.motion with
          position := c.position + to_entity / distance * (distance - c.offset) } }
  else some e

/-- Method `Resolver::apply_constraint` (src/main.rs:260): the clamp applied over
the whole population. -/
noncomputable def apply_constraint : List Entity → Constraint → Option (List Entity)
  | [], _ => some []
  | e :: rest, c =>
    match constrain_entity c e with
    | none => none
    | some e' =>
      match apply_constraint rest c with
      | none => none
      | some rest' => some (e' :: rest')

/-- One iteration of the inner collision loop (src/main.rs:284-294) on the
pair `(entity_a, entity_b)`, with `off = entity_offset`.  A zero-distance
overlapping pair makes the Rust division `collision_axis / distance`
produce NaN; that state is modelled as `none`. -/
noncomputable def collide_pair (off : ℝ) (a b : Entity) : Option (Entity × Entity) :=
  let collision_axis := a.motion.position - b.motion.position
  let distance := collision_axis.length
  if distance < off then
    if distance = 0 then none
    else
      let n := collision_axis / distance
      let delta := off - distance
      some
        ({ a with motion :=
            { a.motion with position := a.motion.position + 0.5 * delta * n } },
         { b with motion :=
            { b.motion with position := b.motion.position - 0.5 * delta * n } })
  else some (a, b)

/-- The inner loop `for k in i+1..entity_count` (src/main.rs:283): runs
`entity_a` against every later entity in order, threading the in-place
position updates of both. -/
noncomputable def collide_one (off : ℝ) : Entity → List Entity → Option (Entity × List Entity)
  | a, [] => some (a, [])
  | a, b :: rest =>
    match collide_pair off a b with
    | none => none
    | some (a', b') =>
      match collide_one off a' rest with
      | none => none
      | some (a2, rest') => some (a2, b' :: rest')

/-- Lemma: `collide_one` returns a list of the same length as its input: the inner
loop rewrites entries in place and never grows or shrinks the population. -/
theorem collide_one_length (off : ℝ) :
    ∀ (a : Entity) (l : List Entity) (a' : Entity) (l' : List Entity),
      collide_one off a l = some (a', l') → l'.length = l.length := by
  intro a l
  induction l generalizing a with
  | nil =>
    intro a' l' h
    simp only [collide_one, Option.some.injEq, Prod.mk.injEq] at h
    simp [← h.2]
  | cons b rest ih =>
    intro a' l' h
    simp only [collide_one] at h
    cases hp : collide_pair off a b with
    | none => rw [hp] at h; exact absurd h (by simp)
    | some p =>
      obtain ⟨a1, b1⟩ := p
      rw [hp] at h
      dsimp only at h
      cases hc : collide_one off a1 rest with
      | none => rw [hc] at h; exact absurd h (by simp)
      | some q =>
        obtain ⟨a2, rest2⟩ := q
        rw [hc] at h
        simp only [Option.some.injEq, Prod.mk.injEq] at h
        rw [← h.2]
        simp [ih a1 a2 rest2 hc]

/-- The outer loop `for i in 0..entity_count` (src/main.rs:280). -/
noncomputable def collide_all (off : ℝ) : List Entity → Option (List Entity)
  | [] => some []
  | a :: rest =>
    match h : collide_one off a rest with
    | none => none
    | some (a', rest') =>
      match collide_all off rest' with
      | none => none
      | some rest2 => some (a' :: rest2)
termination_by es => es.length
decreasing_by
  simp only [List.length_cons]
  rw [collide_one_length off a rest a' rest' h]
  omega

/-- Method `Resolver::apply_collisions` (src/main.rs:276).  The source evaluates
`entities[0].borrow().radius * 2.0` before the loops, which panics (an
out-of-range index) on an empty population; that is the `none` case. -/
noncomputable def apply_collisions : List Entity → Option (List Entity)
  | [] => none
  | e :: rest => collide_all (e.radius * 2) (e :: rest)

/-- The integration pass `Resolver::update_position` (src/main.rs:246). -/
noncomputable def update_position (entities : List Entity) (dt : ℝ) : List Entity :=
  entities.map fun e => { e with motion := e.motion.update_position dt }

/-- Method `Resolver::update` (src/main.rs:239): gravity, boundary clamp,
collisions, integration, in that order. -/
noncomputable def update (r : Resolver) (entities : List Entity)
    (constraint : Constraint) (dt : ℝ) : Option (List Entity) :=
  match apply_constraint (r.apply_gravity entities) constraint with
  | none => none
  | some es2 =>
    match apply_collisions es2 with
    | none => none
    | some es3 => some (update_position es3 dt)

end Resolver

/-- The non-position observables of an entity: `e'` keeps the radius,
colour, previous position, and pending acceleration of `e`. -/
def EntityFrame (e e' : Entity) : Prop :=
  e'.radius = e.radius ∧ e'.color = e.color
    ∧ e'.motion.previous_position = e.motion.previous_position
    ∧ e'.motion.acceleration = e.motion.acceleration

/- ------------------------------------------------------------------ -/
/- Claim theorems                                                     -/
/- ------------------------------------------------------------------ -/

theorem entityFrame_refl (e : Entity) : EntityFrame e e := ⟨rfl, rfl, rfl, rfl⟩

theorem entityFrame_trans {a b c : Entity} (h1 : EntityFrame a b) (h2 : EntityFrame b c) :
    EntityFrame a c :=
  ⟨h2.1.trans h1.1, h2.2.1.trans h1.2.1, h2.2.2.1.trans h1.2.2.1, h2.2.2.2.trans h1.2.2.2⟩

theorem forall2_entityFrame_trans :
    ∀ {l1 l2 l3 : List Entity}, List.Forall₂ EntityFrame l1 l2 →
      List.Forall₂ EntityFrame l2 l3 → List.Forall₂ EntityFrame l1 l3 := by
  intro l1 l2 l3 h1
  induction h1 generalizing l3 with
  | nil => intro h2; cases h2; exact List.Forall₂.nil
  | cons hab hrest ih =>
    intro h2
    cases h2 with
    | cons hbc hrest2 => exact List.Forall₂.cons (entityFrame_trans hab hbc) (ih hrest2)

/-- C4: for every Motion state and every dt, `update_position dt` (the
source's name for the spec's `integrate`) sets position to
old position + acceleration + (position - previous_position) * dt * dt,
sets previous_position to the old position, and resets acceleration to
zero. -/
theorem c4_integrate_formula (m : Motion) (dt : ℝ) :
    (m.update_position dt).position
        = m.position + m.acceleration + (m.position - m.previous_position) * dt * dt
      ∧ (m.update_position dt).previous_position = m.position
      ∧ (m.update_position dt).acceleration = 0 := by
  refine ⟨?_, rfl, rfl⟩
  show m.position + (m.acceleration + (m.position - m.previous_position) * dt * dt)
      = m.position + m.acceleration + (m.position - m.previous_position) * dt * dt
  ext <;> simp <;> ring

/-- C8: accelerating by `g` twice and then integrating once gives exactly
the same Motion state as accelerating by `2 • g` once and integrating
once. -/
theorem c8_accelerate_twice (m : Motion) (g : Vec2) (dt : ℝ) :
    ((m.accelerate g).accelerate g).update_position dt
      = (m.accelerate ((2 : ℝ) * g)).update_position dt := by
  ext <;> simp [Motion.accelerate, Motion.update_position] <;> ring

/-- C9: with zero acceleration, one integration step moves the position by
exactly `(position - previous_position) * dt * dt`; in particular a state
with `previous_position = position` (zero inferred velocity) keeps its
position unchanged for every dt. -/
theorem c9_zero_acceleration_step (m : Motion) (dt : ℝ) (h : m.acceleration = 0) :
    (m.update_position dt).position
        = m.position + (m.position - m.previous_position) * dt * dt
      ∧ (m.previous_position = m.position → (m.update_position dt).position = m.position) := by
  constructor
  · show m.position + (m.acceleration + (m.position - m.previous_position) * dt * dt)
        = m.position + (m.position - m.previous_position) * dt * dt
    rw [h]
    ext <;> simp
  · intro hv
    show m.position + (m.acceleration + (m.position - m.previous_position) * dt * dt)
        = m.position
    rw [h, hv]
    ext <;> simp

/-- Witness for C9 at a concrete state: position (1, 2), previous position
(0, 2) (so inferred velocity (1, 0)), zero acceleration, dt = 3. -/
theorem c9_zero_acceleration_step_witness :
    ((Motion.mk ⟨1, 2⟩ ⟨0, 2⟩ 0).update_position 3).position
      = (⟨1, 2⟩ : Vec2) + ((⟨1, 2⟩ : Vec2) - (⟨0, 2⟩ : Vec2)) * (3 : ℝ) * (3 : ℝ) :=
  (c9_zero_acceleration_step (Motion.mk ⟨1, 2⟩ ⟨0, 2⟩ 0) 3 rfl).1

/-- C5: one `update` call is exactly the four phases in order — gravity
accumulation over the whole population, then the boundary pass, then the
collision pass, then integration by dt — each phase a full pass over the
population before the next starts (the later phases consume the earlier
phase's entire output). -/
theorem c5_update_phase_order (r : Resolver) (es : List Entity) (c : Constraint) (dt : ℝ) :
    r.update es c dt
      = (Resolver.apply_constraint (r.apply_gravity es) c).bind fun es2 =>
          (Resolver.apply_collisions es2).map fun es3 =>
            Resolver.update_position es3 dt := by
  rw [Resolver.update]
  cases Resolver.apply_constraint (r.apply_gravity es) c with
  | none => rfl
  | some es2 =>
    dsimp only
    cases hk : Resolver.apply_collisions es2 with
    | none => simp [hk]
    | some es3 => simp [hk]

/-- Unfolding `collide_all` on the empty population. -/
theorem Resolver.collide_all_nil (off : ℝ) : Resolver.collide_all off [] = some [] := by
  rw [Resolver.collide_all]

/-- Unfolding `collide_all` one outer-loop step. -/
theorem Resolver.collide_all_cons (off : ℝ) (a : Entity) (rest : List Entity) :
    Resolver.collide_all off (a :: rest)
      = match Resolver.collide_one off a rest with
        | none => none
        | some (a', rest') =>
          match Resolver.collide_all off rest' with
          | none => none
          | some rest2 => some (a' :: rest2) := by
  rw [Resolver.collide_all]
  rcases hk : Resolver.collide_one off a rest with _ | ⟨a', rest'⟩ <;> simp [hk]

/-- Lemma: `collide_all` on a two-entity population runs exactly one pair. -/
theorem Resolver.collide_all_pair (off : ℝ) (a b : Entity) :
    Resolver.collide_all off [a, b]
      = match Resolver.collide_pair off a b with
        | none => none
        | some (a', b') => some [a', b'] := by
  rw [Resolver.collide_all_cons]
  rcases hk : Resolver.collide_pair off a b with _ | ⟨a', b'⟩
  · simp [Resolver.collide_one, hk]
  · simp [Resolver.collide_one, hk, Resolver.collide_all_cons, Resolver.collide_all_nil]

/-- C2: on a population with fewer than 2 entities the collision pass never
reaches a colliding pair — but the source still evaluates
`entities[0].borrow().radius * 2.0` first, so the empty population panics
(modelled as `none`) while a singleton population is left unchanged. -/
theorem c2_small_population_collisions :
    Resolver.apply_collisions ([] : List Entity) = none
      ∧ ∀ e : Entity, Resolver.apply_collisions [e] = some [e] := by
  refine ⟨rfl, fun e => ?_⟩
  show Resolver.collide_all (e.radius * 2) [e] = some [e]
  rw [Resolver.collide_all_cons]
  simp [Resolver.collide_one, Resolver.collide_all_nil]

/-- The boundary clamp of one entity preserves everything but the
position. -/
theorem constrain_entity_frame {c : Constraint} {e e' : Entity}
    (h : Resolver.constrain_entity c e = some e') : EntityFrame e e' := by
  rw [Resolver.constrain_entity] at h
  split_ifs at h with h1 h2
  · simp only [Option.some.injEq] at h
    rw [← h]
    exact ⟨rfl, rfl, rfl, rfl⟩
  · simp only [Option.some.injEq] at h
    rw [← h]
    exact entityFrame_refl e

/-- The boundary pass preserves everything but the position, pointwise. -/
theorem apply_constraint_frame :
    ∀ (es : List Entity) (c : Constraint) (out : List Entity),
      Resolver.apply_constraint es c = some out → List.Forall₂ EntityFrame es out := by
  intro es
  induction es with
  | nil =>
    intro c out h
    simp only [Resolver.apply_constraint, Option.some.injEq] at h
    rw [← h]
    exact List.Forall₂.nil
  | cons e rest ih =>
    intro c out h
    simp only [Resolver.apply_constraint] at h
    cases h1 : Resolver.constrain_entity c e with
    | none => rw [h1] at h; exact absurd h (by simp)
    | some e' =>
      rw [h1] at h
      dsimp only at h
      cases h2 : Resolver.apply_constraint rest c with
      | none => rw [h2] at h; exact absurd h (by simp)
      | some rest' =>
        rw [h2] at h
        simp only [Option.some.injEq] at h
        rw [← h]
        exact List.Forall₂.cons (constrain_entity_frame h1) (ih c rest' h2)

/-- One collision-pair step preserves everything but the two positions. -/
theorem collide_pair_frame {off : ℝ} {a b a' b' : Entity}
    (h : Resolver.collide_pair off a b = some (a', b')) :
    EntityFrame a a' ∧ EntityFrame b b' := by
  rw [Resolver.collide_pair] at h
  split_ifs at h with h1 h2
  · simp only [Option.some.injEq, Prod.mk.injEq] at h
    exact ⟨by rw [← h.1]; exact ⟨rfl, rfl, rfl, rfl⟩, by rw [← h.2]; exact ⟨rfl, rfl, rfl, rfl⟩⟩
  · simp only [Option.some.injEq, Prod.mk.injEq] at h
    exact ⟨by rw [← h.1]; exact entityFrame_refl a, by rw [← h.2]; exact entityFrame_refl b⟩

/-- The inner collision loop preserves everything but positions. -/
theorem collide_one_frame (off : ℝ) :
    ∀ (a : Entity) (l : List Entity) (a' : Entity) (l' : List Entity),
      Resolver.collide_one off a l = some (a', l') →
        EntityFrame a a' ∧ List.Forall₂ EntityFrame l l' := by
  intro a l
  induction l generalizing a with
  | nil =>
    intro a' l' h
    simp only [Resolver.collide_one, Option.some.injEq, Prod.mk.injEq] at h
    exact ⟨by rw [← h.1]; exact entityFrame_refl a,
           by rw [← h.2]; exact List.Forall₂.nil⟩
  | cons b rest ih =>
    intro a' l' h
    simp only [Resolver.collide_one] at h
    cases hp : Resolver.collide_pair off a b with
    | none => rw [hp] at h; exact absurd h (by simp)
    | some p =>
      obtain ⟨a1, b1⟩ := p
      rw [hp] at h
      dsimp only at h
      cases hc : Resolver.collide_one off a1 rest with
      | none => rw [hc] at h; exact absurd h (by simp)
      | some q =>
        obtain ⟨a2, rest2⟩ := q
        rw [hc] at h
        simp only [Option.some.injEq, Prod.mk.injEq] at h
        obtain ⟨hpa, hpb⟩ := collide_pair_frame hp
        obtain ⟨hra, hrl⟩ := ih a1 a2 rest2 hc
        refine ⟨?_, ?_⟩
        · rw [← h.1]; exact entityFrame_trans hpa hra
        · rw [← h.2]; exact List.Forall₂.cons hpb hrl

/-- The outer collision loop preserves everything but positions. -/
theorem collide_all_frame (off : ℝ) :
    ∀ (n : ℕ) (es out : List Entity), es.length ≤ n →
      Resolver.collide_all off es = some out → List.Forall₂ EntityFrame es out := by
  intro n
  induction n with
  | zero =>
    intro es out hlen h
    have hnil : es = [] := List.length_eq_zero.mp (Nat.le_zero.mp hlen)
    subst hnil
    rw [Resolver.collide_all_nil] at h
    simp only [Option.some.injEq] at h
    rw [← h]
    exact List.Forall₂.nil
  | succ n ih =>
    intro es out hlen h
    cases es with
    | nil =>
      rw [Resolver.collide_all_nil] at h
      simp only [Option.some.injEq] at h
      rw [← h]
      exact List.Forall₂.nil
    | cons a rest =>
      rw [Resolver.collide_all_cons] at h
      cases h1 : Resolver.collide_one off a rest with
      | none => rw [h1] at h; exact absurd h (by simp)
      | some p =>
        obtain ⟨a', rest'⟩ := p
        rw [h1] at h
        dsimp only at h
        cases h2 : Resolver.collide_all off rest' with
        | none => rw [h2] at h; exact absurd h (by simp)
        | some rest2 =>
          rw [h2] at h
          simp only [Option.some.injEq] at h
          obtain ⟨hfa, hfrest⟩ := collide_one_frame off a rest a' rest' h1
          have hlen' : rest'.length ≤ n := by
            rw [Resolver.collide_one_length off a rest a' rest' h1]
            simpa using Nat.lt_succ_iff.mp (Nat.lt_of_lt_of_le (by simp) hlen)
          rw [← h]
          exact List.Forall₂.cons hfa
            (forall2_entityFrame_trans hfrest (ih rest' rest2 hlen' h2))

/-- The collision pass preserves everything but positions. -/
theorem apply_collisions_frame {es out : List Entity}
    (h : Resolver.apply_collisions es = some out) : List.Forall₂ EntityFrame es out := by
  cases es with
  | nil => exact absurd h (by simp [Resolver.apply_collisions])
  | cons e rest =>
    exact collide_all_frame (e.radius * 2) (e :: rest).length (e :: rest) out le_rfl h

/-- A singleton population passes through the collision pass unchanged. -/
theorem apply_collisions_singleton (e : Entity) :
    Resolver.apply_collisions [e] = some [e] := by
  show Resolver.collide_all (e.radius * 2) [e] = some [e]
  rw [Resolver.collide_all_cons]
  simp [Resolver.collide_one, Resolver.collide_all_nil]

/-- C10: the boundary pass and the collision pass mutate only the
`position` field of each entity's Motion — radius, colour,
`previous_position` and the pending `acceleration` are all unchanged,
pointwise over the population (so a clamp or a collision correction shows
up as a change of the inferred velocity `position - previous_position`
consumed by the next integration step). -/
theorem c10_passes_mutate_only_position (es out : List Entity) :
    (∀ c : Constraint, Resolver.apply_constraint es c = some out →
        List.Forall₂ EntityFrame es out)
      ∧ (Resolver.apply_collisions es = some out →
          List.Forall₂ EntityFrame es out) :=
  ⟨fun c h => apply_constraint_frame es c out h, fun h => apply_collisions_frame h⟩

/-- Witness for C10: run the collision pass on a concrete singleton
population and read off the frame condition. -/
theorem c10_passes_mutate_only_position_witness :
    List.Forall₂ EntityFrame [Entity.new 1 ⟨0, 0, 0, 0⟩ (Motion.new 0 0)]
      [Entity.new 1 ⟨0, 0, 0, 0⟩ (Motion.new 0 0)] :=
  (c10_passes_mutate_only_position _ _).2
    (apply_collisions_singleton (Entity.new 1 ⟨0, 0, 0, 0⟩ (Motion.new 0 0)))

/-- Evaluate `length` on a difference of two literal vectors. -/
theorem Vec2.length_sub_eval (px py qx qy d : ℝ) (hd : 0 ≤ d)
    (h : (px - qx) ^ 2 + (py - qy) ^ 2 = d ^ 2) :
    (Vec2.mk px py - Vec2.mk qx qy).length = d := by
  rw [Vec2.length]
  simp only [Vec2.sub_x, Vec2.sub_y]
  rw [h, Real.sqrt_sq hd]

/-- An entity whose distance from the centre does not exceed
`radius - offset` passes through the clamp unchanged. -/
theorem constrain_entity_inside (c : Constraint) (e : Entity)
    (h : ¬ ((e.motion.position - c.position).length > c.radius - c.offset)) :
    Resolver.constrain_entity c e = some e := by
  simp only [Resolver.constrain_entity]
  rw [if_neg h]

/-- The clamp branch of `constrain_entity`, with the distance named. -/
theorem constrain_entity_clamped (c : Constraint) (e : Entity) (d : ℝ)
    (hd : (e.motion.position - c.position).length = d)
    (h1 : d > c.radius - c.offset) (h0 : ¬ (d = 0)) :
    Resolver.constrain_entity c e
      = some { e with motion := { e.motion with
          position := c.position
            + (e.motion.position - c.position) / d * (d - c.offset) } } := by
  simp only [Resolver.constrain_entity]
  rw [hd, if_pos h1, if_neg h0]

/-- Distance from the centre after the clamp: moving to
`center + (p - center) / d * (d - off)` puts the point at distance
`|d - off|`. -/
theorem clamped_distance (p q : Vec2) (off d : ℝ)
    (hd : (p - q).length = d) (h0 : d ≠ 0) :
    ((q + (p - q) / d * (d - off)) - q).length = |d - off| := by
  have hdnn : 0 ≤ d := hd ▸ Vec2.length_nonneg (p - q)
  have hrw : (q + (p - q) / d * (d - off)) - q = ((d - off) / d) * (p - q) := by
    ext <;> simp <;> ring
  rw [hrw, Vec2.length_rMul, hd, abs_div, abs_of_nonneg hdnn,
    div_mul_cancel₀ _ h0]

/-- C1 (amended): under the documented invariant `0 ≤ offset < radius`,
the boundary pass leaves an in-bounds entity unchanged, and moves an
entity at distance `d > radius - offset` along the same direction to
distance `|d - offset|` from the centre (it subtracts `offset` from the
current distance; it does not clamp to `radius - offset`).  The
containment bound `≤ radius - offset` therefore holds after the pass only
for entities whose pre-pass distance is between `offset` and `radius`. -/
theorem c1_boundary_pass_amended (c : Constraint) (es out : List Entity)
    (hoff : 0 ≤ c.offset) (hlt : c.offset < c.radius)
    (h : Resolver.apply_constraint es c = some out) :
    List.Forall₂ (fun e e' =>
      ((e.motion.position - c.position).length ≤ c.radius - c.offset → e' = e)
      ∧ (c.radius - c.offset < (e.motion.position - c.position).length →
          e'.motion.position
            = c.position + (e.motion.position - c.position)
                / (e.motion.position - c.position).length
                * ((e.motion.position - c.position).length - c.offset)
          ∧ (e'.motion.position - c.position).length
              = |(e.motion.position - c.position).length - c.offset|
          ∧ ((e.motion.position - c.position).length ≤ c.radius →
              c.offset ≤ (e.motion.position - c.position).length →
              (e'.motion.position - c.position).length ≤ c.radius - c.offset)))
      es out := by
  induction es generalizing out with
  | nil =>
    simp only [Resolver.apply_constraint, Option.some.injEq] at h
    rw [← h]
    exact List.Forall₂.nil
  | cons e rest ih =>
    simp only [Resolver.apply_constraint] at h
    cases h1 : Resolver.constrain_entity c e with
    | none => rw [h1] at h; exact absurd h (by simp)
    | some e' =>
      rw [h1] at h
      dsimp only at h
      cases h2 : Resolver.apply_constraint rest c with
      | none => rw [h2] at h; exact absurd h (by simp)
      | some rest' =>
        rw [h2] at h
        simp only [Option.some.injEq] at h
        rw [← h]
        refine List.Forall₂.cons ?_ (ih rest' h2)
        by_cases hgt : c.radius - c.offset < (e.motion.position - c.position).length
        · have hdpos : 0 < (e.motion.position - c.position).length :=
            lt_of_lt_of_le (by linarith) (le_of_lt hgt)
          have h0 : ¬ ((e.motion.position - c.position).length = 0) := ne_of_gt hdpos
          have hval := constrain_entity_clamped c e
            (e.motion.position - c.position).length rfl hgt h0
          rw [h1] at hval
          simp only [Option.some.injEq] at hval
          constructor
          · intro hle; exact absurd hgt (not_lt.mpr hle)
          · intro _
            have hpos : e'.motion.position
                = c.position + (e.motion.position - c.position)
                    / (e.motion.position - c.position).length
                    * ((e.motion.position - c.position).length - c.offset) := by
              rw [hval]
            have hdist : (e'.motion.position - c.position).length
                = |(e.motion.position - c.position).length - c.offset| := by
              rw [hpos]
              exact clamped_distance e.motion.position c.position c.offset
                (e.motion.position - c.position).length rfl h0
            refine ⟨hpos, hdist, ?_⟩
            intro hler hgeo
            rw [hdist, abs_of_nonneg (by linarith)]
            linarith
        · have hval := constrain_entity_inside c e hgt
          rw [h1] at hval
          simp only [Option.some.injEq] at hval
          constructor
          · intro _; exact hval
          · intro hgt2; exact absurd hgt2 hgt

/-- Counterexample to C1 as stated: an entity at distance 500 from the
centre of a radius-400, offset-25 boundary is moved to (475, 0) — distance
475, not the claimed `radius - offset = 375` — and still violates the
containment bound after the pass. -/
theorem c1_boundary_clamp_counterexample :
    Resolver.apply_constraint
        [Entity.new 25 ⟨1, 1, 1, 1⟩ (Motion.new 500 0)]
        (Constraint.mk ⟨0, 0⟩ 400 25 ⟨0, 0, 0, 0⟩)
      = some [Entity.new 25 ⟨1, 1, 1, 1⟩ (Motion.mk ⟨475, 0⟩ ⟨500, 0⟩ ⟨0, 0⟩)]
      ∧ (Vec2.mk 475 0 - Vec2.mk 0 0).length ≠ 400 - 25
      ∧ ¬ ((Vec2.mk 475 0 - Vec2.mk 0 0).length ≤ 400 - 25) := by
  have hlen : ((Entity.new 25 ⟨1, 1, 1, 1⟩ (Motion.new 500 0)).motion.position
      - (Constraint.mk ⟨0, 0⟩ 400 25 ⟨0, 0, 0, 0⟩).position).length = 500 :=
    Vec2.length_sub_eval 500 0 0 0 500 (by norm_num) (by norm_num)
  have hc := constrain_entity_clamped (Constraint.mk ⟨0, 0⟩ 400 25 ⟨0, 0, 0, 0⟩)
    (Entity.new 25 ⟨1, 1, 1, 1⟩ (Motion.new 500 0)) 500 hlen (by norm_num) (by norm_num)
  have h475 : (Vec2.mk 475 0 - Vec2.mk 0 0).length = 475 :=
    Vec2.length_sub_eval 475 0 0 0 475 (by norm_num) (by norm_num)
  refine ⟨?_, ?_, ?_⟩
  · simp only [Resolver.apply_constraint, hc, Option.some.injEq, List.cons.injEq, and_true]
    ext <;> simp [Entity.new, Motion.new] <;> norm_num
  · rw [h475]; norm_num
  · rw [h475]; norm_num

/-- Witness for the amended C1 on a concrete in-bounds entity: the pass
returns it unchanged. -/
theorem c1_boundary_pass_amended_witness :
    List.Forall₂ (fun e e' =>
      ((e.motion.position - Vec2.mk 0 0).length ≤ 400 - 25 → e' = e)
      ∧ ((400 : ℝ) - 25 < (e.motion.position - Vec2.mk 0 0).length →
          e'.motion.position
            = Vec2.mk 0 0 + (e.motion.position - Vec2.mk 0 0)
                / (e.motion.position - Vec2.mk 0 0).length
                * ((e.motion.position - Vec2.mk 0 0).length - 25)
          ∧ (e'.motion.position - Vec2.mk 0 0).length
              = |(e.motion.position - Vec2.mk 0 0).length - 25|
          ∧ ((e.motion.position - Vec2.mk 0 0).length ≤ 400 →
              (25 : ℝ) ≤ (e.motion.position - Vec2.mk 0 0).length →
              (e'.motion.position - Vec2.mk 0 0).length ≤ 400 - 25)))
      [Entity.new 25 ⟨1, 1, 1, 1⟩ (Motion.new 100 0)]
      [Entity.new 25 ⟨1, 1, 1, 1⟩ (Motion.new 100 0)] := by
  have hlen : ((Entity.new 25 ⟨1, 1, 1, 1⟩ (Motion.new 100 0)).motion.position
      - (Constraint.mk ⟨0, 0⟩ 400 25 ⟨0, 0, 0, 0⟩).position).length = 100 :=
    Vec2.length_sub_eval 100 0 0 0 100 (by norm_num) (by norm_num)
  have hin := constrain_entity_inside (Constraint.mk ⟨0, 0⟩ 400 25 ⟨0, 0, 0, 0⟩)
    (Entity.new 25 ⟨1, 1, 1, 1⟩ (Motion.new 100 0)) (by rw [hlen]; norm_num)
  exact c1_boundary_pass_amended (Constraint.mk ⟨0, 0⟩ 400 25 ⟨0, 0, 0, 0⟩)
    [Entity.new 25 ⟨1, 1, 1, 1⟩ (Motion.new 100 0)]
    [Entity.new 25 ⟨1, 1, 1, 1⟩ (Motion.new 100 0)]
    (by norm_num) (by norm_num)
    (by simp only [Resolver.apply_constraint, hin])

/-- A pair at distance at least `entity_offset` is left untouched by the
collision step. -/
theorem collide_pair_miss (off : ℝ) (a b : Entity)
    (h : ¬ ((a.motion.position - b.motion.position).length < off)) :
    Resolver.collide_pair off a b = some (a, b) := by
  simp only [Resolver.collide_pair]
  rw [if_neg h]

/-- The triggered collision step, with the distance named. -/
theorem collide_pair_hit (off : ℝ) (a b : Entity) (d : ℝ)
    (hd : (a.motion.position - b.motion.position).length = d)
    (h : d < off) (h0 : ¬ (d = 0)) :
    Resolver.collide_pair off a b
      = some
        ({ a with motion := { a.motion with position :=
            a.motion.position
              + 0.5 * (off - d) * ((a.motion.position - b.motion.position) / d) } },
         { b with motion := { b.motion with position :=
            b.motion.position
              - 0.5 * (off - d) * ((a.motion.position - b.motion.position) / d) } }) := by
  simp only [Resolver.collide_pair]
  rw [hd, if_pos h, if_neg h0]

/-- A zero-distance pair inside the trigger range hits the division by
zero. -/
theorem collide_pair_zero (off : ℝ) (a b : Entity)
    (hd : (a.motion.position - b.motion.position).length = 0) (h : 0 < off) :
    Resolver.collide_pair off a b = none := by
  simp only [Resolver.collide_pair]
  rw [hd, if_pos h, if_pos rfl]

/-- C7 (amended): two entities at distance at least `2 * r₀` (twice the
FIRST entity's radius — the threshold the code actually uses) are left
unmoved by the collision pass. -/
theorem c7_no_op_nonoverlapping_amended (a b : Entity)
    (h : 2 * a.radius ≤ (a.motion.position - b.motion.position).length) :
    Resolver.apply_collisions [a, b] = some [a, b] := by
  show Resolver.collide_all (a.radius * 2) [a, b] = some [a, b]
  rw [Resolver.collide_all_pair]
  rw [collide_pair_miss (a.radius * 2) a b (by rw [not_lt]; linarith)]

/-- Witness for the amended C7: two radius-10 entities 25 apart are
unmoved. -/
theorem c7_no_op_nonoverlapping_amended_witness :
    Resolver.apply_collisions
        [Entity.new 10 ⟨1, 1, 1, 1⟩ (Motion.new 0 0),
         Entity.new 10 ⟨1, 1, 1, 1⟩ (Motion.new 25 0)]
      = some
        [Entity.new 10 ⟨1, 1, 1, 1⟩ (Motion.new 0 0),
         Entity.new 10 ⟨1, 1, 1, 1⟩ (Motion.new 25 0)] := by
  refine c7_no_op_nonoverlapping_amended _ _ ?_
  have hlen : ((Entity.new 10 ⟨1, 1, 1, 1⟩ (Motion.new 0 0)).motion.position
      - (Entity.new 10 ⟨1, 1, 1, 1⟩ (Motion.new 25 0)).motion.position).length = 25 :=
    Vec2.length_sub_eval 0 0 25 0 25 (by norm_num) (by norm_num)
  rw [hlen]
  norm_num [Entity.new]

/-- Counterexample to C7 as stated: entity 0 has radius 3 and entity 1
radius 1, 5 apart — not overlapping since `5 ≥ r₀ + r₁ = 4` — yet the pass
moves both, because the code compares the distance against
`2 * r₀ = 6`, not against the sum of the two radii. -/
theorem c7_counterexample :
    Resolver.apply_collisions
        [Entity.new 3 ⟨1, 1, 1, 1⟩ (Motion.new 0 0),
         Entity.new 1 ⟨1, 1, 1, 1⟩ (Motion.new 5 0)]
      = some
        [Entity.new 3 ⟨1, 1, 1, 1⟩ (Motion.mk ⟨-0.5, 0⟩ ⟨0, 0⟩ ⟨0, 0⟩),
         Entity.new 1 ⟨1, 1, 1, 1⟩ (Motion.mk ⟨5.5, 0⟩ ⟨5, 0⟩ ⟨0, 0⟩)]
      ∧ (Vec2.mk 0 0 - Vec2.mk 5 0).length = 5
      ∧ (3 : ℝ) + 1 ≤ 5
      ∧ Vec2.mk (-0.5) 0 ≠ Vec2.mk 0 0 := by
  have hlen : ((Entity.new 3 ⟨1, 1, 1, 1⟩ (Motion.new 0 0)).motion.position
      - (Entity.new 1 ⟨1, 1, 1, 1⟩ (Motion.new 5 0)).motion.position).length = 5 :=
    Vec2.length_sub_eval 0 0 5 0 5 (by norm_num) (by norm_num)
  have hp := collide_pair_hit ((Entity.new 3 ⟨1, 1, 1, 1⟩ (Motion.new 0 0)).radius * 2)
    (Entity.new 3 ⟨1, 1, 1, 1⟩ (Motion.new 0 0))
    (Entity.new 1 ⟨1, 1, 1, 1⟩ (Motion.new 5 0)) 5 hlen
    (by norm_num [Entity.new]) (by norm_num)
  refine ⟨?_, Vec2.length_sub_eval 0 0 5 0 5 (by norm_num) (by norm_num),
    by norm_num, ?_⟩
  · show Resolver.collide_all ((Entity.new 3 ⟨1, 1, 1, 1⟩ (Motion.new 0 0)).radius * 2) _ = _
    rw [Resolver.collide_all_pair, hp]
    simp only [Option.some.injEq, List.cons.injEq, and_true]
    constructor
    · ext <;> simp [Entity.new, Motion.new] <;> norm_num
    · ext <;> simp [Entity.new, Motion.new] <;> norm_num
  · intro hcontra
    have : (-0.5 : ℝ) = 0 := congrArg Vec2.x hcontra
    norm_num at this

/-- C6 (amended): two entities closer than `2 * r₀` (twice the FIRST
entity's radius, the code's threshold — equal to `r_i + r_j` when radii are
uniform) and at nonzero distance are pushed apart by equal and opposite
corrections to exact distance `2 * r₀`, keeping their midpoint fixed. -/
theorem c6_collision_separation_amended (a b : Entity)
    (h0 : 0 < (a.motion.position - b.motion.position).length)
    (h : (a.motion.position - b.motion.position).length < 2 * a.radius) :
    ∃ a' b', Resolver.apply_collisions [a, b] = some [a', b']
      ∧ (a'.motion.position - b'.motion.position).length = 2 * a.radius
      ∧ a'.motion.position + b'.motion.position
          = a.motion.position + b.motion.position
      ∧ a'.motion.position - a.motion.position
          = -(b'.motion.position - b.motion.position) := by
  set d := (a.motion.position - b.motion.position).length with hd
  have hne : ¬ (d = 0) := ne_of_gt h0
  have hlt : d < a.radius * 2 := by linarith
  have hp := collide_pair_hit (a.radius * 2) a b d hd.symm hlt hne
  refine ⟨{ a with motion := { a.motion with position :=
      a.motion.position
        + 0.5 * (a.radius * 2 - d) * ((a.motion.position - b.motion.position) / d) } },
    { b with motion := { b.motion with position :=
      b.motion.position
        - 0.5 * (a.radius * 2 - d) * ((a.motion.position - b.motion.position) / d) } },
    ?_, ?_, ?_, ?_⟩
  · show Resolver.collide_all (a.radius * 2) [a, b] = _
    rw [Resolver.collide_all_pair, hp]
  · have key : (a.motion.position
        + 0.5 * (a.radius * 2 - d) * ((a.motion.position - b.motion.position) / d))
        - (b.motion.position
          - 0.5 * (a.radius * 2 - d) * ((a.motion.position - b.motion.position) / d))
        = ((a.radius * 2) / d) * (a.motion.position - b.motion.position) := by
      ext <;> (field_simp; ring)
    dsimp only
    rw [key, Vec2.length_rMul, ← hd,
      abs_of_pos (div_pos (by linarith) h0)]
    field_simp
    ring
  · dsimp only
    ext <;> simp <;> ring
  · dsimp only
    ext <;> simp <;> ring

/-- Witness for the amended C6: radius-10 entities 15 apart end up 20
apart with the midpoint fixed. -/
theorem c6_collision_separation_amended_witness :
    ∃ a' b', Resolver.apply_collisions
        [Entity.new 10 ⟨1, 1, 1, 1⟩ (Motion.new 0 0),
         Entity.new 10 ⟨1, 1, 1, 1⟩ (Motion.new 15 0)]
      = some [a', b']
      ∧ (a'.motion.position - b'.motion.position).length = 2 * 10
      ∧ a'.motion.position + b'.motion.position = Vec2.mk 0 0 + Vec2.mk 15 0
      ∧ a'.motion.position - Vec2.mk 0 0
          = -(b'.motion.position - Vec2.mk 15 0) := by
  have hlen : ((Entity.new 10 ⟨1, 1, 1, 1⟩ (Motion.new 0 0)).motion.position
      - (Entity.new 10 ⟨1, 1, 1, 1⟩ (Motion.new 15 0)).motion.position).length = 15 :=
    Vec2.length_sub_eval 0 0 15 0 15 (by norm_num) (by norm_num)
  exact c6_collision_separation_amended
    (Entity.new 10 ⟨1, 1, 1, 1⟩ (Motion.new 0 0))
    (Entity.new 10 ⟨1, 1, 1, 1⟩ (Motion.new 15 0))
    (by rw [hlen]; norm_num)
    (by rw [hlen]; norm_num [Entity.new])

/-- Counterexample to C6 as stated: entity 0 has radius 1 and entity 1
radius 3, 3 apart — overlapping by the claim's `r_i + r_j = 4` threshold,
distance nonzero — yet the pass moves nothing, because the code compares
against `2 * r₀ = 2 ≤ 3`; afterwards the distance is still 3, not
`r_i + r_j`. -/
theorem c6_counterexample :
    Resolver.apply_collisions
        [Entity.new 1 ⟨1, 1, 1, 1⟩ (Motion.new 0 0),
         Entity.new 3 ⟨1, 1, 1, 1⟩ (Motion.new 3 0)]
      = some
        [Entity.new 1 ⟨1, 1, 1, 1⟩ (Motion.new 0 0),
         Entity.new 3 ⟨1, 1, 1, 1⟩ (Motion.new 3 0)]
      ∧ (Vec2.mk 0 0 - Vec2.mk 3 0).length = 3
      ∧ (0 : ℝ) < 3
      ∧ (3 : ℝ) < 1 + 3
      ∧ (3 : ℝ) ≠ 1 + 3 := by
  have hlen : ((Entity.new 1 ⟨1, 1, 1, 1⟩ (Motion.new 0 0)).motion.position
      - (Entity.new 3 ⟨1, 1, 1, 1⟩ (Motion.new 3 0)).motion.position).length = 3 :=
    Vec2.length_sub_eval 0 0 3 0 3 (by norm_num) (by norm_num)
  refine ⟨?_, Vec2.length_sub_eval 0 0 3 0 3 (by norm_num) (by norm_num),
    by norm_num, by norm_num, by norm_num⟩
  show Resolver.collide_all ((Entity.new 1 ⟨1, 1, 1, 1⟩ (Motion.new 0 0)).radius * 2) _ = _
  rw [Resolver.collide_all_pair,
    collide_pair_miss _ _ _ (by rw [hlen]; norm_num [Entity.new])]

/-- C3: two entities at identical coordinates make one full `update` call
hit the unguarded zero-distance division in the collision pass
(`collision_axis / distance` with `distance = 0`, i.e. `0.0 / 0.0 = NaN`
in the Rust source), modelled as `none`: the update does NOT produce a
defined position. -/
theorem c3_coincident_entities_update_undefined :
    Resolver.update (Resolver.mk ⟨0, 10⟩)
        [Entity.mk 25 ⟨1, 1, 1, 1⟩ (Motion.mk ⟨100, 0⟩ ⟨100, 0⟩ ⟨0, 0⟩),
         Entity.mk 25 ⟨1, 1, 1, 1⟩ (Motion.mk ⟨100, 0⟩ ⟨100, 0⟩ ⟨0, 0⟩)]
        (Constraint.mk ⟨0, 0⟩ 400 25 ⟨0, 0, 0, 0⟩) 0.016
      = none := by
  have hg : Resolver.apply_gravity (Resolver.mk ⟨0, 10⟩)
      [Entity.mk 25 ⟨1, 1, 1, 1⟩ (Motion.mk ⟨100, 0⟩ ⟨100, 0⟩ ⟨0, 0⟩),
       Entity.mk 25 ⟨1, 1, 1, 1⟩ (Motion.mk ⟨100, 0⟩ ⟨100, 0⟩ ⟨0, 0⟩)]
      = [Entity.mk 25 ⟨1, 1, 1, 1⟩ (Motion.mk ⟨100, 0⟩ ⟨100, 0⟩ ⟨0, 10⟩),
         Entity.mk 25 ⟨1, 1, 1, 1⟩ (Motion.mk ⟨100, 0⟩ ⟨100, 0⟩ ⟨0, 10⟩)] := by
    simp [Resolver.apply_gravity, Motion.accelerate, Vec2.ext_iff]
  have hG : Resolver.constrain_entity (Constraint.mk ⟨0, 0⟩ 400 25 ⟨0, 0, 0, 0⟩)
      (Entity.mk 25 ⟨1, 1, 1, 1⟩ (Motion.mk ⟨100, 0⟩ ⟨100, 0⟩ ⟨0, 10⟩))
      = some (Entity.mk 25 ⟨1, 1, 1, 1⟩ (Motion.mk ⟨100, 0⟩ ⟨100, 0⟩ ⟨0, 10⟩)) := by
    apply constrain_entity_inside
    show ¬ ((Vec2.mk 100 0 - Vec2.mk 0 0).length > (400 : ℝ) - 25)
    rw [Vec2.length_sub_eval 100 0 0 0 100 (by norm_num) (by norm_num)]
    norm_num
  have hcst : Resolver.apply_constraint
      [Entity.mk 25 ⟨1, 1, 1, 1⟩ (Motion.mk ⟨100, 0⟩ ⟨100, 0⟩ ⟨0, 10⟩),
       Entity.mk 25 ⟨1, 1, 1, 1⟩ (Motion.mk ⟨100, 0⟩ ⟨100, 0⟩ ⟨0, 10⟩)]
      (Constraint.mk ⟨0, 0⟩ 400 25 ⟨0, 0, 0, 0⟩)
      = some [Entity.mk 25 ⟨1, 1, 1, 1⟩ (Motion.mk ⟨100, 0⟩ ⟨100, 0⟩ ⟨0, 10⟩),
              Entity.mk 25 ⟨1, 1, 1, 1⟩ (Motion.mk ⟨100, 0⟩ ⟨100, 0⟩ ⟨0, 10⟩)] := by
    simp only [Resolver.apply_constraint, hG]
  have hcol : Resolver.apply_collisions
      [Entity.mk 25 ⟨1, 1, 1, 1⟩ (Motion.mk ⟨100, 0⟩ ⟨100, 0⟩ ⟨0, 10⟩),
       Entity.mk 25 ⟨1, 1, 1, 1⟩ (Motion.mk ⟨100, 0⟩ ⟨100, 0⟩ ⟨0, 10⟩)] = none := by
    simp only [Resolver.apply_collisions]
    rw [Resolver.collide_all_pair]
    rw [collide_pair_zero
      ((Entity.mk 25 ⟨1, 1, 1, 1⟩ (Motion.mk ⟨100, 0⟩ ⟨100, 0⟩ ⟨0, 10⟩)).radius * 2)
      (Entity.mk 25 ⟨1, 1, 1, 1⟩ (Motion.mk ⟨100, 0⟩ ⟨100, 0⟩ ⟨0, 10⟩))
      (Entity.mk 25 ⟨1, 1, 1, 1⟩ (Motion.mk ⟨100, 0⟩ ⟨100, 0⟩ ⟨0, 10⟩))
      (Vec2.length_sub_eval 100 0 100 0 0 (by norm_num) (by norm_num))
      (by norm_num)]
  rw [Resolver.update, hg, hcst]
  dsimp only
  rw [hcol]
